import Mathlib

/-!
Shallow embedding of the notification / admission-control core of the
nerimity-server repository: the `rateLimit` express middleware, the
socket broadcast emitters (`emitServerJoined`, `emitServerMessageCreated`)
and the FCM push-notification fanout (`sendServerPushMessageNotification`).
Pure data and decisions are modelled as Lean functions; external effects
(socket emits, store calls, token deletions) are modelled as explicit
operation traces returned by the functions.
-/

/-! ## Admission controller (middleware/rateLimit.ts) -/

/-- Options accepted by the `rateLimit` middleware factory
(`interface Options` in middleware/rateLimit.ts). `message` is the
optional custom 429 text. -/
structure RateLimitOptions where
  name : String
  expireMS : Nat
  requestCount : Nat
  useIP : Bool
  globalLimit : Bool
  nextIfRatedLimited : Bool
  custom429Message : Option String
deriving DecidableEq

/-- Embeds `req.userIP.replace(/:/g, '=')`: every colon of the IP string is
replaced by an equals sign. -/
def normalizeIP (ip : String) : String :=
  String.map (fun c => if c = ':' then '=' else c) ip

/-- Embeds the key computation of the middleware body (lines 21-34 of
middleware/rateLimit.ts): starting from `let id = ''`, when `globalLimit`
is unset, `id` becomes the identity (normalized IP when `useIP`, else the
user id), suffixed with `-name` only when `opts.name` is truthy
(non-empty); when `globalLimit` is set, `id` is `opts.name`. -/
def rateLimitKey (opts : RateLimitOptions) (userId ip : String) : String :=
  let id := ""
  let id :=
    if !opts.globalLimit then
      let id0 := if opts.useIP then normalizeIP ip else userId
      if opts.name ≠ "" then id0 ++ "-" ++ opts.name else id0
    else id
  if opts.globalLimit then opts.name else id

/-- One call issued to the external counter store
(`checkRateLimited({id, expireMS, requestCount})`). -/
structure StoreCall where
  id : String
  expireMS : Nat
  requestCount : Nat
deriving DecidableEq

/-- Outcome of one middleware run: either the downstream handler runs
(with `req.rateLimited` set to the remaining ttl when the passthrough
branch was taken), or the request is rejected with a status, message and
ttl. -/
inductive RateLimitOutcome where
  | proceed (rateLimited : Option Nat)
  | reject (status : Nat) (message : String) (ttl : Nat)
deriving DecidableEq

/-- Embeds one invocation of the function returned by `rateLimit(opts)`
(middleware/rateLimit.ts lines 17-53). The external
`checkRateLimited` counter store is a parameter `store`; it returns
`some ttl` when the quota is exceeded (a truthy remaining ttl) and `none`
otherwise. The result collects the store calls issued and the outcome:
on a truthy ttl with `nextIfRatedLimited` set, `req.rateLimited` is set
and `next()` is called; on a truthy ttl otherwise, a 429 with
`opts.message || 'Slow down!'` and the ttl; else `next()`. -/
def rateLimitRun (opts : RateLimitOptions) (userId ip : String)
    (store : StoreCall → Option Nat) : List StoreCall × RateLimitOutcome :=
  let call : StoreCall :=
    ⟨rateLimitKey opts userId ip, opts.expireMS, opts.requestCount⟩
  let ttl := store call
  match ttl with
  | some t =>
    if opts.nextIfRatedLimited then
      (⟨[call], .proceed (some t)⟩)
    else
      (⟨[call], .reject 429 (opts.custom429Message.getD "Slow down!") t⟩)
  | none => (⟨[call], .proceed none⟩)

/-! ## Push notification fanout (fcm/pushNotification.ts) -/

/-- Modelled from the spec: `ServerNotificationPingMode` is imported from
services/User/User, which is not under src/. Per the spec's data model a
notification preference is one of ALL and MENTIONS_ONLY (absence of a
record being the default). -/
inductive PingMode where
  | ALL
  | MENTIONS_ONLY
deriving DecidableEq

/-- One `joinedServerSettings` record: a per-(userId, serverId)
notification preference row. -/
structure ServerSetting where
  serverId : String
  userId : String
  notificationPingMode : PingMode
deriving DecidableEq

/-- One user row together with the relations traversed by the
`firebaseMessagingToken.findMany` query: the ids of the servers the user
is a member of, the user's `joinedServerSettings` records, and the FCM
tokens registered under the user's account. -/
structure DbUser where
  id : String
  servers : List String
  joinedServerSettings : List ServerSetting
  tokens : List String
deriving DecidableEq

/-- Embeds the `where` clause of the token query of
`sendServerPushMessageNotification` (fcm/pushNotification.ts lines
48-84): the token's user is a member of the server, and at least one of
(1) the user has no `joinedServerSettings` record with this `serverId`,
(2) the user has such a record whose `userId` is among the mentioned user
ids with mode MENTIONS_ONLY, (3) the user has such a record with mode
ALL. -/
def userPushEligible (serverId : String) (mentionedUserIds : List String)
    (u : DbUser) : Bool :=
  u.servers.contains serverId &&
    (u.joinedServerSettings.all (fun s => !(s.serverId = serverId)) ||
     u.joinedServerSettings.any (fun s =>
       s.serverId = serverId && mentionedUserIds.contains s.userId &&
       s.notificationPingMode = PingMode.MENTIONS_ONLY) ||
     u.joinedServerSettings.any (fun s =>
       s.serverId = serverId && s.notificationPingMode = PingMode.ALL))

/-- Embeds the token selection of `sendServerPushMessageNotification`
(fcm/pushNotification.ts lines 47-87): the tokens of every user matching
the query's `where` clause. Nothing in the query refers to the message
author, so the author's own tokens are selected like any other
member's. -/
def serverPushTokens (db : List DbUser) (serverId : String)
    (mentionedUserIds : List String) : List String :=
  (db.filter (userPushEligible serverId mentionedUserIds)).flatMap DbUser.tokens

/-- Embeds `message?.content?.substring(0, 100)` followed by
`...(content ? { content } : undefined)` (fcm/pushNotification.ts lines
90 and 96, and identically lines 138 and 144): `none` models an omitted
`content` field of the push data payload. JS `substring(0, 100)` is
modelled as taking the first 100 characters. -/
def pushContent (content : Option String) : Option String :=
  match content with
  | none => none
  | some c =>
    let truncated := String.mk (c.data.take 100)
    if truncated = "" then none else some truncated

/-- Embeds the failed-token collection
`batchResponse.responses.map((r, i) => r.error && tokens[i]).filter(t => t)`
(fcm/pushNotification.ts lines 109-111 and 158-160). Each response is
modelled by the Bool `r.error` presence flag; a response without error
maps to a falsy value, and the filter keeps only truthy entries, so an
out-of-range or empty-string token is dropped as well (both are modelled
by `""`). -/
def failedTokens : List Bool → List String → List String
  | [], _ => []
  | _ :: rs, [] => failedTokens rs []
  | r :: rs, t :: ts =>
    if r && t ≠ "" then t :: failedTokens rs ts else failedTokens rs ts

/-- Embeds `if (!failedTokens.length) return; removeFCMTokens(failedTokens)`
(fcm/pushNotification.ts lines 113-114 and 162-163): `none` models the
early return without any `removeFCMTokens` call, `some l` models one call
with argument `l`. -/
def removeCall (tokens : List String) (responses : List Bool) :
    Option (List String) :=
  let failed := failedTokens responses tokens
  if failed.length = 0 then none else some failed

/-- Result of the external `admin.messaging().sendEachForMulticast` call:
either a per-token response list (each entry's Bool is the presence of
`error` on that response), or a rejection of the whole batch call with an
error message. -/
inductive GatewayResult where
  | ok (responses : List Bool)
  | failure (error : String)
deriving DecidableEq

/-- Observable result of one run of the dispatch part of
`sendServerPushMessageNotification`: the error propagating out of the
function if any (the source has no try/catch), whether the gateway was
called, the `removeFCMTokens` calls issued, and the log lines written
(the source writes none on this path). -/
structure DispatchResult where
  raised : Option String
  gatewayCalled : Bool
  removeCalls : List (List String)
  logs : List String
deriving DecidableEq

/-- Embeds the control flow of `sendServerPushMessageNotification` after
token resolution (fcm/pushNotification.ts lines 45, 88, 92-114):
return early when credentials are missing or the token list is empty;
otherwise call the gateway. The source wraps the gateway call in no
try/catch and writes no log here, so a gateway rejection propagates out
of the function and no `removeFCMTokens` call is made; on a response
list, exactly the collected failed tokens are removed (no call when that
list is empty). -/
def sendPushDispatch (hasCredentials : Bool) (tokens : List String)
    (gateway : List String → GatewayResult) : DispatchResult :=
  if !hasCredentials then ⟨none, false, [], []⟩
  else if tokens.length = 0 then ⟨none, false, [], []⟩
  else
    match gateway tokens with
    | .failure e => ⟨some e, true, [], []⟩
    | .ok responses =>
      match removeCall tokens responses with
      | none => ⟨none, true, [], []⟩
      | some failed => ⟨none, true, [failed], []⟩

/-! ## Socket broadcast emitters (emits/Server.ts in src/unnamed/part_002) -/

/-- Name constant from common/ClientEventNames (the module is not under
src/; the constant is opaque and modelled by its own name). -/
def MESSAGE_CREATED : String := "MESSAGE_CREATED"

/-- Name constant from common/ClientEventNames, modelled by its own
name. -/
def SERVER_MEMBER_JOINED : String := "SERVER_MEMBER_JOINED"

/-- Name constant from common/ClientEventNames, modelled by its own
name. -/
def SERVER_JOINED : String := "SERVER_JOINED"

/-- Modelled from the spec: `CHANNEL_PERMISSIONS.PRIVATE_CHANNEL.bit`
from common/Bitwise is not under src/; it is an opaque single permission
bit, modelled as one fixed bit value. -/
def PRIVATE_CHANNEL_BIT : Nat := 8

/-- Modelled from the spec: `hasBit` from common/Bitwise is not under
src/; per the spec a channel is "marked private" when the private
permission bit is set in its permissions bitfield, so `hasBit` tests
whether the given bit is set. -/
def hasBit (value bit : Nat) : Bool :=
  value &&& bit ≠ 0

/-- The fields of a message used by `emitServerMessageCreated`. -/
structure Msg where
  id : String
  channelId : String
deriving DecidableEq

/-- Payload shapes of the emitted socket events, one constructor per
distinct object shape appearing in the source. `msgOnly` is
`{ message }`, `msgWithSocketId` is `{ socketId, message }` (the
`socketId` property may hold JS `undefined`, modelled as `none`),
`memberJoined` is `{ serverId, member }` abbreviated to the member's
user id, and `serverJoined` is the SERVER_JOINED body abbreviated to
the server id (its remaining fields play no part in the claims). -/
inductive EmitPayload where
  | msgOnly (message : Msg)
  | msgWithSocketId (socketId : Option String) (message : Msg)
  | memberJoined (serverId : String) (memberUserId : String)
  | serverJoined (serverId : String)
deriving DecidableEq

/-- One operation performed against the socket.io server: an emit to a
room, optionally excluding one socket id (`io.in(room).except(x).emit`),
or a `socketsJoin` making every socket in `room` join `target`
(`io.in(room).socketsJoin(target)`). -/
inductive SocketOp where
  | emit (room : String) (excluded : Option String) (event : String)
      (payload : EmitPayload)
  | socketsJoin (room : String) (target : String)
deriving DecidableEq

/-- The inputs of `emitServerJoined` (`ServerJoinOpts`) restricted to the
fields the function reads: the server's id and creator id, the channels
(id and nullable permissions bitfield, `channel.permissions || 0` in the
source), and `opts.joinedMember?.user.id` flattened to an optional
string (`none` when the member or its user id is absent). -/
structure Chan where
  id : String
  permissions : Option Nat
deriving DecidableEq

/-- Server fields read by `emitServerJoined`. -/
structure Srv where
  id : String
  createdById : String
deriving DecidableEq

/-- Options record of `emitServerJoined`. -/
structure ServerJoinOpts where
  server : Srv
  channels : List Chan
  joinedMemberUserId : Option String
deriving DecidableEq

/-- Embeds `emitServerJoined` (src/unnamed/part_002 lines 50-84) as the
ordered trace of socket operations it performs, or the thrown error.
The guard `if (!opts.joinedMember?.user.id) throw new Error('User not
found.')` runs first, so a missing (or empty, JS-falsy) user id throws
before any emit or join. Then: SERVER_MEMBER_JOINED to the server room;
the user's sockets join the server room; for each channel, the user's
sockets join the channel room unless the channel is private
(`hasBit(channel.permissions || 0, PRIVATE_CHANNEL.bit)`) and the user
is not the server's creator; finally SERVER_JOINED to the user's own
room. -/
def emitServerJoined (opts : ServerJoinOpts) :
    Except String (List SocketOp) :=
  match opts.joinedMemberUserId with
  | none => .error "User not found."
  | some uid =>
    if uid = "" then .error "User not found."
    else
      let channelJoins := opts.channels.filterMap (fun c =>
        let isPrivateChannel := hasBit (c.permissions.getD 0) PRIVATE_CHANNEL_BIT
        let isAdmin := opts.server.createdById = uid
        if isPrivateChannel && !isAdmin then none
        else some (SocketOp.socketsJoin uid c.id))
      .ok
        ([SocketOp.emit opts.server.id none SERVER_MEMBER_JOINED
            (.memberJoined opts.server.id uid),
          SocketOp.socketsJoin uid opts.server.id] ++
         channelJoins ++
         [SocketOp.emit uid none SERVER_JOINED (.serverJoined opts.server.id)])

/-- Embeds `emitServerMessageCreated` (src/unnamed/part_002 lines
115-130) as the ordered trace of emits: with a `socketId`, a
MESSAGE_CREATED emit of `{ message }` to the channel room excluding that
socket, then a MESSAGE_CREATED emit of `{ socketId, message }` to the
socket's own room; without one, a single MESSAGE_CREATED emit of
`{ socketId, message }` (with `socketId` undefined) to the channel
room. -/
def emitServerMessageCreated (message : Msg) (socketId : Option String) :
    List SocketOp :=
  match socketId with
  | some sid =>
    [SocketOp.emit message.channelId (some sid) MESSAGE_CREATED
       (.msgOnly message),
     SocketOp.emit sid none MESSAGE_CREATED
       (.msgWithSocketId (some sid) message)]
  | none =>
    [SocketOp.emit message.channelId none MESSAGE_CREATED
       (.msgWithSocketId none message)]

/-! ## Theorems: admission controller -/

/-- Helper: every run of the middleware issues exactly one counter-store
call, keyed by `rateLimitKey`, whatever the store answers. -/
theorem rateLimitRun_fst (opts : RateLimitOptions) (userId ip : String)
    (store : StoreCall → Option Nat) :
    (rateLimitRun opts userId ip store).1 =
      [⟨rateLimitKey opts userId ip, opts.expireMS, opts.requestCount⟩] := by
  cases h : store ⟨rateLimitKey opts userId ip, opts.expireMS, opts.requestCount⟩ with
  | none => simp [rateLimitRun, h]
  | some t =>
    by_cases hn : opts.nextIfRatedLimited <;> simp [rateLimitRun, h, hn]

/-- C2 counterexample: the claim fails when the action name is the empty
string and `globalLimit` is unset — the guard `if (opts.name)` skips the
suffixing, so the key passed to the counter store is the identity alone
(`"u1"`), not `identity + "-" + action-name` (`"u1-"`). -/
theorem rateLimitKey_empty_name_counterexample :
    (rateLimitRun ⟨"", 20000, 10, false, false, false, none⟩ "u1" "1.2.3.4"
        (fun _ => none)).1 = [⟨"u1", 20000, 10⟩] ∧
      ("u1" : String) ≠ "u1" ++ "-" ++ "" := by
  constructor
  · rfl
  · decide

/-- C2 (amended): on every middleware run the single counter-store call
is keyed as follows: when `globalLimit` is set, the action name alone;
otherwise, with identity the user id (or the normalized IP when `useIP`
is set), the key is `identity + "-" + name` when the action name is
non-empty and the identity alone when the name is empty. -/
theorem rateLimitRun_key_composition (opts : RateLimitOptions)
    (userId ip : String) (store : StoreCall → Option Nat) :
    (rateLimitRun opts userId ip store).1 =
      [⟨if opts.globalLimit then opts.name
        else if opts.name = "" then
          (if opts.useIP then normalizeIP ip else userId)
        else
          (if opts.useIP then normalizeIP ip else userId) ++ "-" ++ opts.name,
        opts.expireMS, opts.requestCount⟩] := by
  rw [rateLimitRun_fst]
  by_cases hg : opts.globalLimit <;> by_cases hn : opts.name = "" <;>
    simp [rateLimitKey, hg, hn]

/-- C6: when the counter store reports the quota exceeded (a truthy
remaining ttl) and `nextIfRatedLimited` is set, the middleware stores the
ttl on the request and proceeds to the downstream handler instead of
rejecting, and its interaction with the counter store is the single
unmodified check keyed by `rateLimitKey` — the passthrough issues no
further store operation. -/
theorem rateLimit_passthrough (opts : RateLimitOptions) (userId ip : String)
    (store : StoreCall → Option Nat) (t : Nat)
    (hstore : store ⟨rateLimitKey opts userId ip, opts.expireMS,
      opts.requestCount⟩ = some t)
    (hp : opts.nextIfRatedLimited = true) :
    rateLimitRun opts userId ip store =
      ([⟨rateLimitKey opts userId ip, opts.expireMS, opts.requestCount⟩],
        .proceed (some t)) := by
  simp [rateLimitRun, hstore, hp]

/-- Witness for C6 at a concrete rate-limited passthrough invocation. -/
theorem rateLimit_passthrough_witness :
    ((fun _ : StoreCall => some 5000)
        ⟨rateLimitKey ⟨"action", 20000, 10, false, false, true, none⟩
          "u1" "ip", 20000, 10⟩ = some 5000) ∧
      rateLimitRun ⟨"action", 20000, 10, false, false, true, none⟩ "u1" "ip"
          (fun _ => some 5000) =
        ([⟨rateLimitKey ⟨"action", 20000, 10, false, false, true, none⟩
            "u1" "ip", 20000, 10⟩], .proceed (some 5000)) :=
  ⟨rfl, rateLimit_passthrough ⟨"action", 20000, 10, false, false, true, none⟩
    "u1" "ip" (fun _ => some 5000) 5000 rfl rfl⟩

/-! ## Theorems: recipient preference resolver -/

/-- Eligibility for a server push written the way the spec states it: the
member has no preference record for this server, or the member's
preference for this server is MENTIONS_ONLY and the member's own id is
among the mentioned user ids, or the member's preference for this server
is ALL. -/
def specServerPushEligible (serverId : String) (mentionedUserIds : List String)
    (u : DbUser) : Bool :=
  u.joinedServerSettings.all (fun s => !(s.serverId = serverId)) ||
    (u.joinedServerSettings.any (fun s =>
        s.serverId = serverId &&
        s.notificationPingMode = PingMode.MENTIONS_ONLY) &&
      mentionedUserIds.contains u.id) ||
    u.joinedServerSettings.any (fun s =>
      s.serverId = serverId && s.notificationPingMode = PingMode.ALL)

/-- Helper: over a settings list whose rows all carry the owner's user
id, testing the mention list against each row's `userId` is testing it
against the owner once. -/
theorem any_mention_factor (uid : String) (m : List String)
    (l : List ServerSetting) (h : ∀ s ∈ l, s.userId = uid)
    (A B : ServerSetting → Bool) :
    (l.any fun s => A s && m.contains s.userId && B s) =
      ((l.any fun s => A s && B s) && m.contains uid) := by
  induction l with
  | nil => simp
  | cons s t ih =>
    have hs : s.userId = uid := h s (List.mem_cons_self s t)
    have ht : ∀ x ∈ t, x.userId = uid := fun x hx =>
      h x (List.mem_cons_of_mem s hx)
    simp only [List.any_cons, ih ht, hs]
    cases m.contains uid <;> cases A s <;> cases B s <;> simp

/-- Helper: under the relational invariant that every
`joinedServerSettings` row carries its owner's user id, the query's
eligibility predicate coincides with server membership plus the spec's
three-way disjunction. -/
theorem userPushEligible_spec (serverId : String) (m : List String)
    (u : DbUser) (h : ∀ s ∈ u.joinedServerSettings, s.userId = u.id) :
    userPushEligible serverId m u =
      (u.servers.contains serverId && specServerPushEligible serverId m u) := by
  unfold userPushEligible specServerPushEligible
  rw [any_mention_factor u.id m u.joinedServerSettings h
    (fun s => s.serverId = serverId)
    (fun s => s.notificationPingMode = PingMode.MENTIONS_ONLY)]

/-- Concrete database of the claim's example: members A (no record),
B (MENTIONS_ONLY, not mentioned), C (MENTIONS_ONLY, mentioned),
D (ALL) of server "s1", each with one device token. -/
def exampleDb : List DbUser :=
  [⟨"uA", ["s1"], [], ["tokA"]⟩,
   ⟨"uB", ["s1"], [⟨"s1", "uB", .MENTIONS_ONLY⟩], ["tokB"]⟩,
   ⟨"uC", ["s1"], [⟨"s1", "uC", .MENTIONS_ONLY⟩], ["tokC"]⟩,
   ⟨"uD", ["s1"], [⟨"s1", "uD", .ALL⟩], ["tokD"]⟩]

/-- C1: for a server-scoped message event the tokens selected for push
dispatch are exactly the tokens of the server members satisfying the
spec's disjunction (no record for this server, or MENTIONS_ONLY and
mentioned, or ALL); in particular on the example database with mention
list `[uC]` the resolved tokens are those of A, C and D. -/
theorem serverPushTokens_spec (db : List DbUser) (serverId : String)
    (m : List String)
    (hwf : ∀ u ∈ db, ∀ s ∈ u.joinedServerSettings, s.userId = u.id) :
    serverPushTokens db serverId m =
        (db.filter fun u =>
          u.servers.contains serverId &&
            specServerPushEligible serverId m u).flatMap DbUser.tokens ∧
      serverPushTokens exampleDb "s1" ["uC"] = ["tokA", "tokC", "tokD"] := by
  constructor
  · unfold serverPushTokens
    congr 1
    exact List.filter_congr fun u hu => userPushEligible_spec serverId m u (hwf u hu)
  · decide

/-- Witness for C1 at the example database. -/
theorem serverPushTokens_spec_witness :
    (∀ u ∈ exampleDb, ∀ s ∈ u.joinedServerSettings, s.userId = u.id) ∧
      (serverPushTokens exampleDb "s1" ["uC"] =
          (exampleDb.filter fun u =>
            u.servers.contains "s1" &&
              specServerPushEligible "s1" ["uC"] u).flatMap DbUser.tokens ∧
        serverPushTokens exampleDb "s1" ["uC"] = ["tokA", "tokC", "tokD"]) :=
  ⟨by decide, serverPushTokens_spec exampleDb "s1" ["uC"] (by decide)⟩

/-- C4: the token query of `sendServerPushMessageNotification` does not
exclude the message author — on a database holding only the author
("author", a member of "s1" with no preference record and one device
token), the author's own token is selected for dispatch of the author's
own message (the query never receives the author's id at all). -/
theorem author_token_not_excluded :
    serverPushTokens [⟨"author", ["s1"], [], ["tokAuthor"]⟩] "s1" [] =
      ["tokAuthor"] := by
  decide

/-! ## Theorems: push payload and dispatcher -/

/-- C9: for a message whose content is longer than 100 characters, the
`content` field of the push data payload is present and equals exactly
the first 100 characters of the content. -/
theorem pushContent_truncates (c : String) (h : 100 < c.length) :
    pushContent (some c) = some (String.mk (c.data.take 100)) := by
  have hlen : c.length = c.data.length := rfl
  have hne : String.mk (c.data.take 100) ≠ "" := by
    intro he
    have hdata : c.data.take 100 = [] := by
      have := congrArg String.data he
      simpa using this
    have := congrArg List.length hdata
    simp [List.length_take] at this
    omega
  simp [pushContent, hne]

/-- A concrete 150-character content string. -/
def sampleContent : String := String.mk (List.replicate 150 'x')

set_option maxRecDepth 4000 in
/-- Witness for C9 at the 150-character content of the claim. -/
theorem pushContent_truncates_witness :
    100 < sampleContent.length ∧
      pushContent (some sampleContent) =
        some (String.mk (sampleContent.data.take 100)) :=
  ⟨by decide, pushContent_truncates sampleContent (by decide)⟩

/-- The failed-token set the spec describes: the tokens paired with a
response carrying an error. -/
def specFailedTokens (tokens : List String) (responses : List Bool) :
    List String :=
  ((responses.zip tokens).filter (fun p => p.1)).map Prod.snd

/-- Helper: with no tokens left, no failed token is collected. -/
theorem failedTokens_nil (rs : List Bool) : failedTokens rs [] = [] := by
  induction rs with
  | nil => rfl
  | cons r t ih => simpa [failedTokens] using ih

/-- Helper: when every token is non-empty, the collected failed tokens
are exactly the tokens whose response carries an error, in order. -/
theorem failedTokens_eq_spec (responses : List Bool) (tokens : List String)
    (hne : ∀ t ∈ tokens, t ≠ "") :
    failedTokens responses tokens = specFailedTokens tokens responses := by
  induction responses generalizing tokens with
  | nil => simp [failedTokens, specFailedTokens]
  | cons r rs ih =>
    cases tokens with
    | nil => simp [failedTokens_nil, specFailedTokens]
    | cons t ts =>
      have ht : t ≠ "" := hne t (List.mem_cons_self t ts)
      have hts : ∀ x ∈ ts, x ≠ "" := fun x hx =>
        hne x (List.mem_cons_of_mem t hx)
      cases r <;>
        simp [failedTokens, specFailedTokens, ht, ih ts hts,
          List.zip_cons_cons, List.filter_cons]

/-- C3 counterexample: a token whose response carries an error is not
passed to deletion when the token is the empty (falsy) string — the
`filter(t => t)` step drops it, so no `removeFCMTokens` call is made at
all, instead of a call deleting exactly that token. -/
theorem removeCall_empty_token_counterexample :
    removeCall [""] [true] = none ∧ removeCall [""] [true] ≠ some [""] := by
  decide

/-- C3 (amended): when every token of the dispatch is non-empty, exactly
the tokens whose individual response carries an error are passed to
`removeFCMTokens`, tokens whose response carries no error are never
deleted, and when no response carries an error no deletion call is made
at all; in particular dispatching `[t1, t2, t3]` with an error only for
`t2` deletes exactly `[t2]`. -/
theorem removeCall_spec (tokens : List String) (responses : List Bool)
    (hne : ∀ t ∈ tokens, t ≠ "") :
    failedTokens responses tokens = specFailedTokens tokens responses ∧
      removeCall tokens responses =
        (if specFailedTokens tokens responses = [] then none
         else some (specFailedTokens tokens responses)) ∧
      removeCall ["t1", "t2", "t3"] [false, true, false] = some ["t2"] := by
  have h := failedTokens_eq_spec responses tokens hne
  refine ⟨h, ?_, by decide⟩
  simp [removeCall, h, List.length_eq_zero]

/-- Witness for C3 at the dispatch `[t1, t2, t3]` with an error only on
the second response. -/
theorem removeCall_spec_witness :
    (∀ t ∈ ["t1", "t2", "t3"], t ≠ "") ∧
      (failedTokens [false, true, false] ["t1", "t2", "t3"] =
          specFailedTokens ["t1", "t2", "t3"] [false, true, false] ∧
        removeCall ["t1", "t2", "t3"] [false, true, false] =
          (if specFailedTokens ["t1", "t2", "t3"] [false, true, false] = []
           then none
           else some (specFailedTokens ["t1", "t2", "t3"]
             [false, true, false])) ∧
        removeCall ["t1", "t2", "t3"] [false, true, false] = some ["t2"]) :=
  ⟨by decide, removeCall_spec ["t1", "t2", "t3"] [false, true, false]
    (by decide)⟩

/-- C5 counterexample: when the whole batch gateway call fails, the
function attempts no token deletion, but it writes no log line and — the
source having no try/catch — the error is raised to the caller of the
push-notification function, contradicting the claim's "logged, not
raised" part. -/
theorem pushDispatch_failure_counterexample :
    sendPushDispatch true ["t1"] (fun _ => .failure "network-error") =
        ⟨some "network-error", true, [], []⟩ ∧
      ¬((sendPushDispatch true ["t1"]
            (fun _ => .failure "network-error")).raised = none ∧
        (sendPushDispatch true ["t1"]
            (fun _ => .failure "network-error")).logs ≠ []) := by
  decide

/-- C5 (amended): when the batched push gateway call itself fails, no
token deletion is attempted; however nothing is logged, and the error
propagates out of the push-notification function to its caller (the
source wraps the gateway call in no try/catch). -/
theorem pushDispatch_failure_no_deletion (tokens : List String) (e : String)
    (h : tokens.length ≠ 0) :
    sendPushDispatch true tokens (fun _ => .failure e) =
      ⟨some e, true, [], []⟩ := by
  simp [sendPushDispatch, h]

/-- Witness for C5 (amended) at a one-token dispatch whose gateway call
fails. -/
theorem pushDispatch_failure_no_deletion_witness :
    (["t1"] : List String).length ≠ 0 ∧
      sendPushDispatch true ["t1"] (fun _ => .failure "boom") =
        ⟨some "boom", true, [], []⟩ :=
  ⟨by decide, pushDispatch_failure_no_deletion ["t1"] "boom" (by decide)⟩

/-! ## Theorems: socket broadcast emitters -/

/-- Helper: the channel-join trace contains no join towards a channel id
absent from the channel list. -/
theorem filterJoin_count_not_mem (uid cid : String) (P : Chan → Bool)
    (l : List Chan) (h : cid ∉ l.map Chan.id) :
    (l.filterMap (fun ch =>
        if P ch then none
        else some (SocketOp.socketsJoin uid ch.id))).count
      (SocketOp.socketsJoin uid cid) = 0 := by
  induction l with
  | nil => rfl
  | cons ch t ih =>
    simp only [List.map_cons, List.mem_cons] at h
    push_neg at h
    by_cases hp : P ch <;>
      simp [List.filterMap_cons, hp, ih h.2, List.count_cons, Ne.symm h.1]

/-- Helper: for a channel of the list (with pairwise distinct channel
ids), the channel-join trace joins its room exactly once when the
filter predicate lets it through and never otherwise. -/
theorem filterJoin_count_mem (uid : String) (P : Chan → Bool)
    (l : List Chan) (c : Chan) (hc : c ∈ l)
    (hnd : (l.map Chan.id).Nodup) :
    (l.filterMap (fun ch =>
        if P ch then none
        else some (SocketOp.socketsJoin uid ch.id))).count
      (SocketOp.socketsJoin uid c.id) = (if P c then 0 else 1) := by
  induction l with
  | nil => cases hc
  | cons ch t ih =>
    simp only [List.map_cons, List.nodup_cons] at hnd
    rcases List.mem_cons.mp hc with rfl | hct
    · by_cases hp : P c <;>
        simp [List.filterMap_cons, hp,
          filterJoin_count_not_mem uid c.id P t hnd.1, List.count_cons]
    · have hid : ch.id ≠ c.id := by
        intro he
        exact hnd.1 (he ▸ List.mem_map_of_mem Chan.id hct)
      by_cases hp : P ch <;>
        simp [List.filterMap_cons, hp, ih hct hnd.2, List.count_cons, hid]

/-- C7: on a server-join lifecycle event the joining user's sockets are
joined to a channel's room exactly once if the channel is not marked
private or the joining user is the server's creator, and never
otherwise (the count over the whole operation trace being decided once
per channel by the private-channel filter). -/
theorem emitServerJoined_private_filter (opts : ServerJoinOpts) (uid : String)
    (c : Chan) (huid : opts.joinedMemberUserId = some uid) (hne : uid ≠ "")
    (hc : c ∈ opts.channels) (hnd : (opts.channels.map Chan.id).Nodup)
    (hcs : c.id ≠ opts.server.id) :
    ∃ ops, emitServerJoined opts = .ok ops ∧
      ops.count (SocketOp.socketsJoin uid c.id) =
        (if !hasBit (c.permissions.getD 0) PRIVATE_CHANNEL_BIT ||
            opts.server.createdById = uid then 1 else 0) := by
  simp only [emitServerJoined, huid, hne, if_neg, ite_false]
  refine ⟨_, rfl, ?_⟩
  rw [List.count_append, List.count_append]
  rw [filterJoin_count_mem uid
    (fun ch => hasBit (ch.permissions.getD 0) PRIVATE_CHANNEL_BIT &&
      !(decide (opts.server.createdById = uid))) opts.channels c hc hnd]
  by_cases h1 : hasBit (c.permissions.getD 0) PRIVATE_CHANNEL_BIT <;>
    by_cases h2 : opts.server.createdById = uid <;>
      simp [List.count_cons, h1, h2, Ne.symm hcs]

/-- Concrete server-join options: server "s1" created by "owner", one
public channel "c1", one private channel "c2" (permissions holding the
private bit), joining user "u1". -/
def joinOptsExample : ServerJoinOpts :=
  ⟨⟨"s1", "owner"⟩, [⟨"c1", none⟩, ⟨"c2", some 8⟩], some "u1"⟩

/-- Witness for C7 at the public channel "c1" of the example join. -/
theorem emitServerJoined_private_filter_witness :
    joinOptsExample.joinedMemberUserId = some "u1" ∧
      ("u1" : String) ≠ "" ∧
      (⟨"c1", none⟩ : Chan) ∈ joinOptsExample.channels ∧
      (joinOptsExample.channels.map Chan.id).Nodup ∧
      ("c1" : String) ≠ joinOptsExample.server.id ∧
      (∃ ops, emitServerJoined joinOptsExample = .ok ops ∧
        ops.count (SocketOp.socketsJoin "u1" "c1") =
          (if !hasBit ((none : Option Nat).getD 0) PRIVATE_CHANNEL_BIT ||
              joinOptsExample.server.createdById = "u1" then 1 else 0)) :=
  ⟨rfl, by decide, by decide, by decide, by decide,
    emitServerJoined_private_filter joinOptsExample "u1" ⟨"c1", none⟩ rfl
      (by decide) (by decide) (by decide) (by decide)⟩

/-- C8: with an originating socket id, `emitServerMessageCreated`
performs exactly two emits of the same MESSAGE_CREATED event — one to
the channel room excluding the originating socket with the plain
`message` payload, and one directly to the originating socket with the
payload shape additionally carrying the socket id; with no socket id, a
single emit to the whole channel room is performed. -/
theorem emitServerMessageCreated_dual (message : Msg) (sid : String) :
    emitServerMessageCreated message (some sid) =
        [SocketOp.emit message.channelId (some sid) MESSAGE_CREATED
           (.msgOnly message),
         SocketOp.emit sid none MESSAGE_CREATED
           (.msgWithSocketId (some sid) message)] ∧
      (emitServerMessageCreated message (some sid)).length = 2 ∧
      emitServerMessageCreated message none =
        [SocketOp.emit message.channelId none MESSAGE_CREATED
           (.msgWithSocketId none message)] :=
  ⟨rfl, rfl, rfl⟩

/-- C10: `emitServerJoined` throws "User not found." when the joined
member's user id is absent (or JS-falsy), performing no emit and no
room join at all; when the user id is present (non-empty), the function
raises nothing and performs its operation trace. -/
theorem emitServerJoined_guard (opts : ServerJoinOpts) :
    (opts.joinedMemberUserId = none →
        emitServerJoined opts = .error "User not found.") ∧
      (∀ uid, opts.joinedMemberUserId = some uid → uid ≠ "" →
        ∃ ops, emitServerJoined opts = .ok ops) := by
  constructor
  · intro h
    simp [emitServerJoined, h]
  · intro uid h hn
    simp only [emitServerJoined, h, hn, ite_false, if_neg]
    exact ⟨_, rfl⟩

/-- The example join options with the joined member's user id absent. -/
def joinOptsNoUser : ServerJoinOpts :=
  ⟨⟨"s1", "owner"⟩, [⟨"c1", none⟩, ⟨"c2", some 8⟩], none⟩

/-- Witness for C10 at a join with the user id absent and a join with it
present. -/
theorem emitServerJoined_guard_witness :
    emitServerJoined joinOptsNoUser = .error "User not found." ∧
      ∃ ops, emitServerJoined joinOptsExample = .ok ops :=
  ⟨(emitServerJoined_guard joinOptsNoUser).1 rfl,
    (emitServerJoined_guard joinOptsExample).2 "u1" rfl (by decide)⟩
